import Mathlib

set_option synthInstance.maxSize 4096

/-!
Shallow embedding of Akumuli's column-store facade
(`ColumnStore`, `CStoreSession`, `ChainIterator` from `column_store.cpp`).

Machine integers (`aku_ParamId`, `aku_Timestamp`, `LogicAddr`) are modelled
as `Nat`; the code performs no arithmetic on them, only comparisons and
copies, so no wrap-around modelling is needed.  The IEEE-754 `double`
payload is modelled by an opaque `Value := Int`: the column store never
computes with the value, it only copies it.
-/

namespace Akumuli

abbrev aku_ParamId := Nat
abbrev aku_Timestamp := Nat
abbrev LogicAddr := Nat
abbrev Value := Int

/-- Status codes crossing the column-store boundary.  `AKU_EIO_ERR` stands
for the source's I/O error status (named with an `_ERR` suffix here). -/
inductive aku_Status where
  | AKU_SUCCESS
  | AKU_ENO_DATA
  | AKU_ENOT_FOUND
  | AKU_EBAD_ARG
  | AKU_EBAD_DATA
  | AKU_ENOT_IMPLEMENTED
  | AKU_EUNAVAILABLE
  | AKU_EIO_ERR
  deriving DecidableEq, Repr

open aku_Status

/-- Modelled from the spec: payload type tag of `aku_Sample` (defined in
`akumuli_def.h`, which is not part of the sources at hand).  This core
stores only `FLOAT`; any other tag is rejected, so one non-float
representative (`BLOB`) suffices. -/
inductive aku_PayloadType where
  | FLOAT
  | BLOB
  deriving DecidableEq, Repr

/-- The `payload` member of `aku_Sample`: a type tag and the double value. -/
structure aku_PData where
  type : aku_PayloadType
  float64 : Value
  deriving DecidableEq, Repr

/-- `aku_Sample`: series id, timestamp, payload. -/
structure aku_Sample where
  paramid : aku_ParamId
  timestamp : aku_Timestamp
  payload : aku_PData
  deriving DecidableEq, Repr

/-- Result of `NBTreeExtentsList::append`. `FAIL_IOERR` stands for the
source's `FAIL_IO` constructor (renamed with an `ERR` suffix here). -/
inductive NBTreeAppendResult where
  | OK
  | OK_FLUSH_NEEDED
  | FAIL_BAD_ID
  | FAIL_BAD_VALUE
  | FAIL_IOERR
  deriving DecidableEq, Repr

open NBTreeAppendResult

/-- Modelled from the spec: the interface of the per-series append tree
(`NBTreeExtentsList`, whose implementation is not among the sources at
hand).  The column store consumes it through exactly these operations
(spec §4.B); the tree's state is an abstract type `τ` and every claim
about the column store is proved for an arbitrary implementation of this
interface (concrete instances below serve as witnesses). -/
structure TreeModel (τ : Type) where
  /-- `NBTreeExtentsList(id, empty, bstore)` -/
  make : aku_ParamId → τ
  /-- `append(ts, value) → AppendResult`, mutating the tree -/
  append : τ → aku_Timestamp → Value → NBTreeAppendResult × τ
  /-- `get_roots()`: current topmost addresses -/
  get_roots : τ → List LogicAddr
  /-- `force_init()` -/
  force_init : τ → τ
  /-- `search(begin, end)`: samples of the half-open range, in order;
  the driver wraps the resulting list in a spec-modelled iterator -/
  search : τ → aku_Timestamp → aku_Timestamp → List (aku_Timestamp × Value)

/-- Modelled from the spec: a simple concrete append tree — the sample
log.  `append` records the sample and returns `OK`; `search` filters the
half-open range `[begin, end)`. Used to instantiate `TreeModel` in
witnesses and in the query-driver evaluations. -/
abbrev SpecTree := List (aku_Timestamp × Value)

/-- Modelled from the spec: `TreeModel` instance over `SpecTree`. -/
def SpecTreeModel : TreeModel SpecTree where
  make _ := []
  append t ts v := (OK, t ++ [(ts, v)])
  get_roots _ := []
  force_init t := t
  search t b e := t.filter (fun p => b ≤ p.1 ∧ p.1 < e)

/-- Modelled from the spec: an append tree whose every `append` crosses a
flush boundary (`OK_FLUSH_NEEDED`) and whose roots are the addresses
`[tree length]`; exercises the rescue-point paths in witnesses. -/
def FlushTreeModel : TreeModel SpecTree where
  make _ := []
  append t ts v := (OK_FLUSH_NEEDED, t ++ [(ts, v)])
  get_roots t := [t.length]
  force_init t := t
  search t b e := t.filter (fun p => b ≤ p.1 ∧ p.1 < e)

/-!
## ChainIterator (`column_store.cpp`)

`ChainIterator::read` drives a vector of inner `NBTreeIterator`s.  An
inner iterator is stateful C++; it is embedded as an abstract state type
`ι` together with a step function
`read : ι → size → (status, batch, ι)` where `batch` is the list of
`(timestamp, value)` pairs written into the caller's buffers (so
`batch.length` is the source's `ressz`; the iterator contract demands
`batch.length ≤ size`).
-/

/-- The step function of an inner `NBTreeIterator`:
`read(destts, destval, size) → (status, ressz)`, with the written pairs
made explicit and the mutated iterator returned. -/
abbrev IterStep (ι : Type) := ι → Nat → aku_Status × List (aku_Timestamp × Value) × ι

/-- An inner iterator respects its buffer: it never writes more than the
requested `size` elements. -/
def StepWF {ι : Type} (step : IterStep ι) : Prop :=
  ∀ s n, (step s n).2.1.length ≤ n

/-- The loop body of `ChainIterator::read` (`column_store.cpp` lines
74–96), as a recursion over the suffix `iters_[pos_ ..]` with the
parallel id suffix `ids_[pos_ ..]`.  The incoming `st` is the running
`status` variable (initialised `AKU_ENO_DATA` before the loop).  Returns
`(status, emitted samples, pos_ increments, updated iterator suffix)`.
Each emitted sample is materialised as in lines 98–103: payload type
`FLOAT`, `paramid` = `ids_[pos_]`, and the pair read from the inner
iterator. -/
def chainLoop {ι : Type} (step : IterStep ι) :
    List aku_ParamId → List ι → Nat → aku_Status →
    aku_Status × List aku_Sample × Nat × List ι
  | _, [], _, st => (st, [], 0, [])
  | ids, it :: rest, size, _ =>
    let curr := ids.headD 0
    let r := step it size
    let st := r.1
    let batch := r.2.1
    let it' := r.2.2
    let out := batch.map (fun p => aku_Sample.mk curr p.1 ⟨aku_PayloadType.FLOAT, p.2⟩)
    let size' := size - batch.length
    if size' = 0 then
      -- `if (size == 0) break;` — before `pos_++`
      (st, out, 0, it' :: rest)
    else if st = AKU_ENO_DATA ∨ st = AKU_SUCCESS then
      -- `pos_++` then `continue` (NO_DATA) or fall through (SUCCESS)
      let r2 := chainLoop step ids.tail rest size' st
      (r2.1, out ++ r2.2.1, r2.2.2.1 + 1, it' :: r2.2.2.2)
    else
      -- `pos_++` then `break` on any other status
      (st, out, 1, it' :: rest)

/-- The state of a `ChainIterator`: the id vector, the inner iterators,
and the cursor `pos_`.  (`query` passes `req.select.ids` wholesale as
`ids_` but only the iterators of the ids found in the registry as
`iters_`, so the two lists need not have equal length.) -/
structure ChainIterator (ι : Type) where
  ids_ : List aku_ParamId
  iters_ : List ι
  pos_ : Nat
  deriving Repr, DecidableEq

/-- `ChainIterator::read(dest, size)`: runs the loop from `pos_` and
returns `(status, accumulated samples, updated iterator)`. -/
def ChainIterator.read {ι : Type} (step : IterStep ι) (c : ChainIterator ι) (size : Nat) :
    aku_Status × List aku_Sample × ChainIterator ι :=
  let r := chainLoop step (c.ids_.drop c.pos_) (c.iters_.drop c.pos_) size AKU_ENO_DATA
  (r.1, r.2.1, ⟨c.ids_, c.iters_.take c.pos_ ++ r.2.2.2, c.pos_ + r.2.2.1⟩)

/-!
### Concrete inner iterators

Two executable instances of `IterStep`:
* `specIterRead` — modelled from the spec: the range iterator the append
  tree's `search` yields, holding the not-yet-delivered samples; a read
  hands out up to `size` of them, with `AKU_SUCCESS` when it filled the
  request and `AKU_ENO_DATA` when the range is exhausted.
* `scriptStep` — a scripted iterator delivering a prescribed response per
  call, used to exercise `ChainIterator::read` against arbitrary inner
  behaviours (the virtual `NBTreeIterator` interface admits them all).
-/

/-- Modelled from the spec: read on a tree range iterator over the
remaining sample list. -/
def specIterRead : IterStep (List (aku_Timestamp × Value)) := fun rem size =>
  let out := rem.take size
  ((if out.length < size then AKU_ENO_DATA else AKU_SUCCESS), out, rem.drop size)

/-- A scripted inner iterator: each `read` pops the next prescribed
`(status, batch)` response (truncated to the requested size, respecting
the buffer contract); an exhausted script keeps answering `AKU_ENO_DATA`. -/
def scriptStep : IterStep (List (aku_Status × List (aku_Timestamp × Value))) := fun scr size =>
  match scr with
  | [] => (AKU_ENO_DATA, [], [])
  | resp :: rest => (resp.1, resp.2.take size, rest)

theorem specIterRead_wf : StepWF specIterRead := by
  intro s n
  simp [specIterRead]

theorem scriptStep_wf : StepWF scriptStep := by
  intro s n
  cases s with
  | nil => simp [scriptStep]
  | cons h t => simp [scriptStep]

/-!
## ColumnStore registry (`column_store.cpp`)

`columns_` is a `std::map<aku_ParamId, std::shared_ptr<NBTreeExtentsList>>`,
embedded as an association list with unique keys.  All operations on the
map run under `table_lock_`; the lock-protected regions are embedded as
single atomic steps.  A writer-session cache holds `shared_ptr`s to the
very tree objects owned by the registry; this aliasing is embedded by
letting the cache store only the key set, reads and writes going through
the registry entry (the shared object).
-/

/-- `std::map::find` on the embedded registry. -/
def colFind {τ : Type} : List (aku_ParamId × τ) → aku_ParamId → Option τ
  | [], _ => none
  | p :: rest, id => if p.1 = id then some p.2 else colFind rest id

/-- In-place mutation of the tree object an existing map entry points to. -/
def colUpdate {τ : Type} : List (aku_ParamId × τ) → aku_ParamId → τ → List (aku_ParamId × τ)
  | [], _, _ => []
  | p :: rest, id, t => if p.1 = id then (id, t) :: rest else p :: colUpdate rest id t

/-- `ColumnStore::create_new_column(id)` (`column_store.cpp` lines
128–141): build the tree, then, atomically under the table lock, reject
an existing id with `AKU_EBAD_ARG` or insert; after the lock is released,
`columns_[id]->force_init()`. -/
def ColumnStore.create_new_column {τ : Type} (T : TreeModel τ)
    (columns_ : List (aku_ParamId × τ)) (id : aku_ParamId) :
    aku_Status × List (aku_ParamId × τ) :=
  let tree := T.make id
  if (colFind columns_ id).isSome then
    (AKU_EBAD_ARG, columns_)
  else
    let m := columns_ ++ [(id, tree)]
    (AKU_SUCCESS, colUpdate m id (T.force_init tree))

/-- `ColumnStore::write(sample, rescue_points, cache_or_null)`
(`column_store.cpp` lines 207–226), one atomic step under the table
lock.  Returns the append result together with the updated registry, the
`rescue_points` vector (overwritten by `get_roots()` via `swap` exactly
on `OK_FLUSH_NEEDED`) and the updated optional session cache
(`unordered_map::insert` keeps an existing entry). -/
def ColumnStore.write {τ : Type} (T : TreeModel τ) (columns_ : List (aku_ParamId × τ))
    (sample : aku_Sample) (rescue_points : List LogicAddr)
    (cache_or_null : Option (List aku_ParamId)) :
    NBTreeAppendResult × List (aku_ParamId × τ) × List LogicAddr × Option (List aku_ParamId) :=
  let id := sample.paramid
  match colFind columns_ id with
  | some tree =>
    let r := T.append tree sample.timestamp sample.payload.float64
    let m' := colUpdate columns_ id r.2
    let rescue' := if r.1 = OK_FLUSH_NEEDED then T.get_roots r.2 else rescue_points
    let cache' := cache_or_null.map (fun c => if id ∈ c then c else c ++ [id])
    (r.1, m', rescue', cache')
  | none => (FAIL_BAD_ID, columns_, rescue_points, cache_or_null)

/-- The state a `CStoreSession` can reach: the shared registry
(`cstore_`, whose tree objects the cached handles alias) and the key set
of the private cache `cache_`. -/
structure CStoreSession (τ : Type) where
  cstore_ : List (aku_ParamId × τ)
  cache_ : List aku_ParamId
  deriving Repr, DecidableEq

/-- `CStoreSession::write(sample, rescue_points)` (`column_store.cpp`
lines 238–249): reject non-float payloads; on a cache hit append through
the cached shared handle (the registry's tree object) without touching
`rescue_points`; on a miss delegate to `ColumnStore::write` with a
pointer to the cache.  (The cache-hit lookup cannot miss the registry in
the source — cache entries are copied out of it and trees are never
removed — the `none` branch is dead code returning `FAIL_BAD_ID`.) -/
def CStoreSession.write {τ : Type} (T : TreeModel τ) (s : CStoreSession τ)
    (sample : aku_Sample) (rescue_points : List LogicAddr) :
    NBTreeAppendResult × CStoreSession τ × List LogicAddr :=
  if sample.payload.type ≠ aku_PayloadType.FLOAT then
    (FAIL_BAD_VALUE, s, rescue_points)
  else if sample.paramid ∈ s.cache_ then
    match colFind s.cstore_ sample.paramid with
    | some tree =>
      let r := T.append tree sample.timestamp sample.payload.float64
      (r.1, ⟨colUpdate s.cstore_ sample.paramid r.2, s.cache_⟩, rescue_points)
    | none => (FAIL_BAD_ID, s, rescue_points)
  else
    let r := ColumnStore.write T s.cstore_ sample rescue_points (some s.cache_)
    (r.1, ⟨r.2.1, (r.2.2.2).getD s.cache_⟩, r.2.2.1)

/-!
## The query driver (`ColumnStore::query`, `column_store.cpp` lines 144–196)
-/

inductive OrderBy where
  | SERIES
  | TIME
  deriving DecidableEq, Repr

/-- `req.group_by`: the flag and the validation map. -/
structure GroupByTag where
  enabled : Bool
  transient_map : List (aku_ParamId × aku_ParamId)
  deriving DecidableEq, Repr

/-- `req.select` (`end` is a reserved word in Lean, hence `begin_`/`end_`). -/
structure SelectTag where
  ids : List aku_ParamId
  begin_ : aku_Timestamp
  end_ : aku_Timestamp
  deriving DecidableEq, Repr

structure ReshapeRequest where
  select : SelectTag
  order_by : OrderBy
  group_by : GroupByTag
  deriving DecidableEq, Repr

/-- How a `ColumnStore::query` call ended. `nullDeref` marks the
undefined behaviour of calling `iter->read` on an empty
`unique_ptr<RowIterator>`; `fuelOut` is an artefact of the bounded
unfolding of the source's `while` loop and is reached by no run whose
fuel exceeds the samples selected (the concrete evaluations below all
end otherwise). -/
inductive QueryEnding where
  | finished
  | refused
  | errored
  | nullDeref
  | fuelOut
  deriving DecidableEq, Repr

/-- The observable interaction of one `ColumnStore::query` call with the
consumer `qproc`: every `set_error` argument in order, every `put`
argument in order, and how the call ended. -/
structure QueryOutcome where
  errors : List aku_Status
  delivered : List aku_Sample
  ending : QueryEnding
  deriving DecidableEq, Repr

/-- `dest.resize(0x1000)` — the driver's batch capacity. -/
def dest_size : Nat := 0x1000

/-- The consumer delivery loop (`for ix ...: if (!qproc.put(dest[ix])) return;`):
`put` is called on each sample in turn until it refuses.  Returns the
final consumer state, the samples `put` was called on (the refusing call
included) and whether a refusal occurred. -/
def deliverBatch {κ : Type} (put : κ → aku_Sample → Bool × κ) :
    κ → List aku_Sample → κ × List aku_Sample × Bool
  | k, [] => (k, [], false)
  | k, s :: rest =>
    let r := put k s
    if r.1 then
      let r2 := deliverBatch put r.2 rest
      (r2.1, s :: r2.2.1, r2.2.2)
    else
      (r.2, [s], true)

/-- The driver's `while (status == AKU_SUCCESS)` loop (`column_store.cpp`
lines 171–195), unfolded on fuel.  Per iteration: read a batch from the
chain iterator; report and stop on a status that is neither `AKU_SUCCESS`
nor `AKU_ENO_DATA`; with `group_by` enabled validate every sample's id
against `transient_map` (first miss reports `AKU_EBAD_DATA` and returns)
and deliver nothing; with `group_by` disabled deliver the batch until the
consumer refuses. -/
def queryLoop {κ : Type} (put : κ → aku_Sample → Bool × κ) (req : ReshapeRequest) :
    Nat → ChainIterator (List (aku_Timestamp × Value)) → κ →
    List aku_Status → List aku_Sample → QueryOutcome
  | 0, _, _, errs, dlv => ⟨errs, dlv, QueryEnding.fuelOut⟩
  | fuel + 1, chain, k, errs, dlv =>
    let r := chain.read specIterRead dest_size
    let status := r.1
    let batch := r.2.1
    let chain' := r.2.2
    if ¬ status = AKU_SUCCESS ∧ ¬ status = AKU_ENO_DATA then
      ⟨errs ++ [status], dlv, QueryEnding.errored⟩
    else if req.group_by.enabled then
      match batch.find? (fun s => (colFind req.group_by.transient_map s.paramid).isNone) with
      | some _ => ⟨errs ++ [AKU_EBAD_DATA], dlv, QueryEnding.errored⟩
      | none =>
        if status = AKU_SUCCESS then
          queryLoop put req fuel chain' k errs dlv
        else
          ⟨errs, dlv, QueryEnding.finished⟩
    else
      let d := deliverBatch put k batch
      if d.2.2 then
        ⟨errs, dlv ++ d.2.1, QueryEnding.refused⟩
      else if status = AKU_SUCCESS then
        queryLoop put req fuel chain' d.1 errs (dlv ++ d.2.1)
      else
        ⟨errs, dlv ++ d.2.1, QueryEnding.finished⟩

/-- The lookup phase of `ColumnStore::query` (lines 147–156): for each
requested id in order, under the table lock, either open a range
iterator via `search(begin, end)` or report `AKU_ENOT_FOUND`.  Returns
the iterators (for the ids found) and the reported errors. -/
def lookupPhase {τ : Type} (T : TreeModel τ) (columns_ : List (aku_ParamId × τ))
    (req : ReshapeRequest) : List (List (aku_Timestamp × Value)) × List aku_Status :=
  req.select.ids.foldl
    (fun acc id =>
      match colFind columns_ id with
      | some tree => (acc.1 ++ [T.search tree req.select.begin_ req.select.end_], acc.2)
      | none => (acc.1, acc.2 ++ [AKU_ENOT_FOUND]))
    ([], [])

/-- `ColumnStore::query(req, qproc)` (lines 144–196).  With
`order_by == SERIES` a `ChainIterator` is built from the *whole*
`req.select.ids` vector and only the iterators of the ids actually
found; otherwise the source reports `AKU_ENOT_IMPLEMENTED` and — lacking
a `return` — falls into the batch loop where `iter->read` dereferences
the empty `unique_ptr` (`nullDeref`).  The loop fuel is the number of
selected samples plus two, enough for every run (each `AKU_SUCCESS`
iteration consumes `dest_size > 0` samples). -/
def ColumnStore.query {τ κ : Type} (T : TreeModel τ) (put : κ → aku_Sample → Bool × κ)
    (columns_ : List (aku_ParamId × τ)) (req : ReshapeRequest) (k : κ) : QueryOutcome :=
  let lp := lookupPhase T columns_ req
  let iters := lp.1
  let errs := lp.2
  if req.order_by = OrderBy.SERIES then
    let chain : ChainIterator (List (aku_Timestamp × Value)) := ⟨req.select.ids, iters, 0⟩
    queryLoop put req ((iters.map List.length).sum + 2) chain k errs []
  else
    ⟨errs ++ [AKU_ENOT_IMPLEMENTED], [], QueryEnding.nullDeref⟩

/-!
## Consumer models and inner-iterator contracts
-/

/-- A consumer whose `put` always accepts. -/
def acceptAll : Unit → aku_Sample → Bool × Unit := fun _ _ => (true, ())

/-- A consumer that accepts its first `b` samples and refuses the next:
back-pressure after a budget. -/
def budgetPut : Nat → aku_Sample → Bool × Nat := fun b _ => (b ≠ 0, b - 1)

/-- An inner iterator that reports `AKU_SUCCESS` only for a read that
filled the whole requested capacity. -/
def SuccFills {ι : Type} (step : IterStep ι) : Prop :=
  ∀ s n, (step s n).1 = AKU_SUCCESS → (step s n).2.1.length = n

/-- An inner iterator that reports `AKU_ENO_DATA` only for a read that
left part of the requested capacity unfilled. -/
def NoDataPartial {ι : Type} (step : IterStep ι) : Prop :=
  ∀ s n, (step s n).1 = AKU_ENO_DATA → (step s n).2.1.length < n

theorem specIterRead_succFills : SuccFills specIterRead := by
  intro s n h
  have hst : (specIterRead s n).1
      = if (s.take n).length < n then AKU_ENO_DATA else AKU_SUCCESS := rfl
  have h2 := List.length_take_le n s
  show (s.take n).length = n
  by_cases hl : (s.take n).length < n
  · rw [hst, if_pos hl] at h
    exact absurd h (by decide)
  · omega

theorem specIterRead_noDataPartial : NoDataPartial specIterRead := by
  intro s n h
  have hst : (specIterRead s n).1
      = if (s.take n).length < n then AKU_ENO_DATA else AKU_SUCCESS := rfl
  show (s.take n).length < n
  by_cases hl : (s.take n).length < n
  · exact hl
  · rw [hst, if_neg hl] at h
    exact absurd h (by decide)

/-!
## Registry map lemmas
-/

theorem colFind_append_self {τ : Type} (m : List (aku_ParamId × τ)) (id : aku_ParamId) (t : τ)
    (h : colFind m id = none) : colFind (m ++ [(id, t)]) id = some t := by
  induction m with
  | nil => simp [colFind]
  | cons p rest ih =>
    by_cases hp : p.1 = id
    · simp [colFind, hp] at h
    · rw [List.cons_append]
      rw [colFind, if_neg hp] at h ⊢
      exact ih h

theorem colFind_colUpdate_self {τ : Type} (m : List (aku_ParamId × τ)) (id : aku_ParamId) (t : τ)
    (h : (colFind m id).isSome) : colFind (colUpdate m id t) id = some t := by
  induction m with
  | nil => simp [colFind] at h
  | cons p rest ih =>
    by_cases hp : p.1 = id
    · simp [colFind, colUpdate, hp]
    · rw [colFind, if_neg hp] at h
      rw [colUpdate, if_neg hp, colFind, if_neg hp]
      exact ih h

/-!
## Claims about the write path
-/

/-- Claim C10: a sample whose payload type is not `FLOAT` makes
`CStoreSession::write` return `FAIL_BAD_VALUE` with the session (cache
and registry trees alike) and the `rescue_points` vector untouched — no
tree's `append` runs. -/
theorem claim_C10 {τ : Type} (T : TreeModel τ) (s : CStoreSession τ)
    (sample : aku_Sample) (rescue_points : List LogicAddr)
    (h : sample.payload.type ≠ aku_PayloadType.FLOAT) :
    CStoreSession.write T s sample rescue_points = (FAIL_BAD_VALUE, s, rescue_points) := by
  simp [CStoreSession.write, h]

theorem claim_C10_witness :
    (aku_Sample.mk 1 10 ⟨aku_PayloadType.BLOB, 5⟩).payload.type ≠ aku_PayloadType.FLOAT ∧
    CStoreSession.write SpecTreeModel ⟨[(1, [])], []⟩ ⟨1, 10, ⟨aku_PayloadType.BLOB, 5⟩⟩ [] =
      (FAIL_BAD_VALUE, ⟨[(1, [])], []⟩, []) :=
  ⟨by decide, claim_C10 SpecTreeModel ⟨[(1, [])], []⟩ ⟨1, 10, ⟨aku_PayloadType.BLOB, 5⟩⟩ [] (by decide)⟩

/-- Claim C3: a `CStoreSession::write` that hits the session cache never
modifies the `rescue_points` vector, whatever the tree's `append`
returns (`OK_FLUSH_NEEDED` included — `T` is arbitrary); the second
conjunct shows the contrast: the same flushing write on the cache-miss
path does populate `rescue_points` through the registry. -/
theorem claim_C3 {τ : Type} (T : TreeModel τ) (s : CStoreSession τ)
    (sample : aku_Sample) (rescue_points : List LogicAddr)
    (hf : sample.payload.type = aku_PayloadType.FLOAT)
    (hc : sample.paramid ∈ s.cache_) :
    (CStoreSession.write T s sample rescue_points).2.2 = rescue_points ∧
    (CStoreSession.write FlushTreeModel ⟨[(1, [])], []⟩ ⟨1, 10, ⟨aku_PayloadType.FLOAT, 5⟩⟩ []).2.2
      = [1] := by
  constructor
  · unfold CStoreSession.write
    rw [if_neg (not_ne_iff.mpr hf), if_pos hc]
    split <;> rfl
  · decide

theorem claim_C3_witness :
    (aku_Sample.mk 1 10 ⟨aku_PayloadType.FLOAT, 5⟩).payload.type = aku_PayloadType.FLOAT ∧
    (1 : aku_ParamId) ∈ (CStoreSession.mk [(1, ([] : SpecTree))] [1]).cache_ ∧
    (CStoreSession.write FlushTreeModel ⟨[(1, [])], [1]⟩ ⟨1, 10, ⟨aku_PayloadType.FLOAT, 5⟩⟩ []).2.2
      = [] :=
  ⟨by decide, by decide,
   (claim_C3 FlushTreeModel ⟨[(1, [])], [1]⟩ ⟨1, 10, ⟨aku_PayloadType.FLOAT, 5⟩⟩ []
      (by decide) (by decide)).1⟩

/-- Claim C6: with the check-then-insert of `create_new_column` embedded
as one atomic step (it runs under the table lock), creating a fresh id
succeeds and registers the id, and every call on an id already present —
the second call in particular — returns `AKU_EBAD_ARG` with the registry
mapping unchanged. -/
theorem claim_C6 {τ : Type} (T : TreeModel τ) (m : List (aku_ParamId × τ)) (id : aku_ParamId)
    (h : colFind m id = none) :
    (ColumnStore.create_new_column T m id).1 = AKU_SUCCESS ∧
    (colFind (ColumnStore.create_new_column T m id).2 id).isSome ∧
    ∀ m' : List (aku_ParamId × τ), (colFind m' id).isSome →
      ColumnStore.create_new_column T m' id = (AKU_EBAD_ARG, m') := by
  refine ⟨?_, ?_, ?_⟩
  · simp [ColumnStore.create_new_column, h]
  · have h1 := colFind_append_self m id (T.make id) h
    have h2 := colFind_colUpdate_self (m ++ [(id, T.make id)]) id
      (T.force_init (T.make id)) (by rw [h1]; rfl)
    simp [ColumnStore.create_new_column, h, h2]
  · intro m' hm'
    simp [ColumnStore.create_new_column, hm']

theorem claim_C6_witness :
    colFind ([] : List (aku_ParamId × SpecTree)) 42 = none ∧
    (ColumnStore.create_new_column SpecTreeModel [] 42).1 = AKU_SUCCESS ∧
    ColumnStore.create_new_column SpecTreeModel
        (ColumnStore.create_new_column SpecTreeModel [] 42).2 42 =
      (AKU_EBAD_ARG, (ColumnStore.create_new_column SpecTreeModel [] 42).2) :=
  ⟨by decide, (claim_C6 SpecTreeModel [] 42 (by decide)).1,
   (claim_C6 SpecTreeModel [] 42 (by decide)).2.2 _ ((claim_C6 SpecTreeModel [] 42 (by decide)).2.1)⟩

/-- Claim C7: `ColumnStore::write` returns `FAIL_BAD_ID` (with nothing
modified) for an id absent from the registry; for a present id it
appends to that id's tree, returns the append result verbatim, and
overwrites `rescue_points` with the tree's current roots exactly when
the append returned `OK_FLUSH_NEEDED`, leaving it unchanged otherwise. -/
theorem claim_C7 {τ : Type} (T : TreeModel τ) (m : List (aku_ParamId × τ))
    (sample : aku_Sample) (rescue_points : List LogicAddr)
    (cache : Option (List aku_ParamId)) :
    (colFind m sample.paramid = none →
      ColumnStore.write T m sample rescue_points cache
        = (FAIL_BAD_ID, m, rescue_points, cache)) ∧
    (∀ tree, colFind m sample.paramid = some tree →
      (ColumnStore.write T m sample rescue_points cache).1
          = (T.append tree sample.timestamp sample.payload.float64).1 ∧
      ((T.append tree sample.timestamp sample.payload.float64).1 = OK_FLUSH_NEEDED →
        (ColumnStore.write T m sample rescue_points cache).2.2.1
          = T.get_roots (T.append tree sample.timestamp sample.payload.float64).2) ∧
      (¬ (T.append tree sample.timestamp sample.payload.float64).1 = OK_FLUSH_NEEDED →
        (ColumnStore.write T m sample rescue_points cache).2.2.1 = rescue_points)) := by
  constructor
  · intro h
    simp [ColumnStore.write, h]
  · intro tree h
    refine ⟨?_, ?_, ?_⟩
    · simp [ColumnStore.write, h]
    · intro hf
      simp [ColumnStore.write, h, hf]
    · intro hf
      simp [ColumnStore.write, h, hf]

theorem claim_C7_witness :
    ColumnStore.write SpecTreeModel [(1, [])] ⟨2, 10, ⟨aku_PayloadType.FLOAT, 5⟩⟩ [7] none
      = (FAIL_BAD_ID, [(1, [])], [7], none) ∧
    (ColumnStore.write SpecTreeModel [(1, [])] ⟨1, 10, ⟨aku_PayloadType.FLOAT, 5⟩⟩ [7] none).1
      = OK ∧
    (ColumnStore.write FlushTreeModel [(1, [])] ⟨1, 10, ⟨aku_PayloadType.FLOAT, 5⟩⟩ [7] none).2.2.1
      = [1] :=
  ⟨(claim_C7 SpecTreeModel [(1, [])] ⟨2, 10, ⟨aku_PayloadType.FLOAT, 5⟩⟩ [7] none).1 (by decide),
   ((claim_C7 SpecTreeModel [(1, [])] ⟨1, 10, ⟨aku_PayloadType.FLOAT, 5⟩⟩ [7] none).2 []
      (by decide)).1.trans (by decide),
   (((claim_C7 FlushTreeModel [(1, [])] ⟨1, 10, ⟨aku_PayloadType.FLOAT, 5⟩⟩ [7] none).2 []
      (by decide)).2.1 (by decide)).trans (by decide)⟩

/-!
## Claims about the query driver
-/

/-- Claim C1 (code bug): querying `select.ids = [1, 99, 2]` with id 99
absent does report `AKU_ENOT_FOUND` and does stream both stored samples,
but `query` hands the *unfiltered* id vector to `ChainIterator` next to
the iterators of the found ids only, so the sample of series 2 is
emitted tagged `paramid = 99` — the id of the *missing* series — instead
of the id of the series it came from: the registry holds `(2, 20, 7)`
and the consumer receives `(99, 20, 7)`. -/
theorem claim_C1_code_observed :
    ColumnStore.query SpecTreeModel acceptAll [(1, [(10, 5)]), (2, [(20, 7)])]
        ⟨⟨[1, 99, 2], 0, 100⟩, OrderBy.SERIES, ⟨false, []⟩⟩ ()
      = ⟨[AKU_ENOT_FOUND],
         [⟨1, 10, ⟨aku_PayloadType.FLOAT, 5⟩⟩, ⟨99, 20, ⟨aku_PayloadType.FLOAT, 7⟩⟩],
         QueryEnding.finished⟩ ∧
    colFind [(1, ([(10, 5)] : SpecTree)), (2, [(20, 7)])] 99 = none := by
  constructor
  · decide
  · decide

/-- Claim C2 (code bug): a query with `order_by = TIME` reports
`AKU_ENOT_IMPLEMENTED` and delivers no sample, but the source lacks a
`return` in that branch: the driver falls into the batch loop and calls
`read` through the empty `unique_ptr<RowIterator>` — a null-pointer
dereference — instead of returning. -/
theorem claim_C2_code_observed :
    ColumnStore.query SpecTreeModel acceptAll [(1, [(10, 5)])]
        ⟨⟨[1], 0, 100⟩, OrderBy.TIME, ⟨false, []⟩⟩ ()
      = ⟨[AKU_ENOT_IMPLEMENTED], [], QueryEnding.nullDeref⟩ := by
  decide

/-- With `group_by` enabled the driver loop only validates: no iteration
ever calls the consumer's `put`, whatever the chain yields. -/
theorem queryLoop_groupBy_delivered {κ : Type} (put : κ → aku_Sample → Bool × κ)
    (req : ReshapeRequest) (hg : req.group_by.enabled = true) :
    ∀ (fuel : Nat) (chain : ChainIterator (List (aku_Timestamp × Value))) (k : κ)
      (errs : List aku_Status) (dlv : List aku_Sample),
      (queryLoop put req fuel chain k errs dlv).delivered = dlv := by
  intro fuel
  induction fuel with
  | zero => intro chain k errs dlv; rfl
  | succ n ih =>
    intro chain k errs dlv
    simp only [queryLoop]
    split
    · rfl
    · split
      · rfl
      · split
        · exact ih _ _ _ _
        · rfl

/-- A driver-loop run that ends in consumer refusal reports no error:
its `errors` are exactly the ones accumulated before the loop. -/
theorem queryLoop_refused_errors {κ : Type} (put : κ → aku_Sample → Bool × κ)
    (req : ReshapeRequest) :
    ∀ (fuel : Nat) (chain : ChainIterator (List (aku_Timestamp × Value))) (k : κ)
      (errs : List aku_Status) (dlv : List aku_Sample),
      (queryLoop put req fuel chain k errs dlv).ending = QueryEnding.refused →
      (queryLoop put req fuel chain k errs dlv).errors = errs := by
  intro fuel
  induction fuel with
  | zero => intro chain k errs dlv h; simp [queryLoop] at h
  | succ n ih =>
    intro chain k errs dlv
    simp only [queryLoop]
    split
    · intro h; simp at h
    · split
      · split
        · intro h; simp at h
        · split
          · exact ih _ _ _ _
          · intro h; simp at h
      · split
        · intro _; rfl
        · split
          · exact ih _ _ _ _
          · intro h; simp at h

/-- Behaviour of the delivery loop against the budget-`b` consumer: a
refusal happens within `b + 1` `put` calls, and an accepted batch of `n`
samples spends `n` of the budget. -/
theorem deliverBatch_budget :
    ∀ (l : List aku_Sample) (b : Nat),
      ((deliverBatch budgetPut b l).2.2 = true →
        (deliverBatch budgetPut b l).2.1.length ≤ b + 1) ∧
      ((deliverBatch budgetPut b l).2.2 = false →
        (deliverBatch budgetPut b l).2.1.length ≤ b ∧
        (deliverBatch budgetPut b l).1 = b - (deliverBatch budgetPut b l).2.1.length) := by
  intro l
  induction l with
  | nil =>
    intro b
    exact ⟨fun h => absurd h (by simp [deliverBatch]), fun _ => by simp [deliverBatch]⟩
  | cons s rest ih =>
    intro b
    cases b with
    | zero =>
      constructor
      · intro _
        simp [deliverBatch, budgetPut]
      · intro h
        simp [deliverBatch, budgetPut] at h
    | succ b' =>
      have hstep : deliverBatch budgetPut (b' + 1) (s :: rest)
          = ((deliverBatch budgetPut b' rest).1,
             s :: (deliverBatch budgetPut b' rest).2.1,
             (deliverBatch budgetPut b' rest).2.2) := by
        simp [deliverBatch, budgetPut]
      rw [hstep]
      obtain ⟨ht, hf⟩ := ih b'
      constructor
      · intro h
        have := ht h
        simp only [List.length_cons]
        omega
      · intro h
        obtain ⟨h1, h2⟩ := hf h
        simp only [List.length_cons]
        omega

/-- Against the budget-`b` consumer, the driver loop grows the delivered
list by at most `b + 1` samples: the `b` accepted ones and the refused
call. -/
theorem queryLoop_budget_len (req : ReshapeRequest) :
    ∀ (fuel : Nat) (chain : ChainIterator (List (aku_Timestamp × Value)))
      (b : Nat) (errs : List aku_Status) (dlv : List aku_Sample),
      (queryLoop budgetPut req fuel chain b errs dlv).delivered.length ≤ dlv.length + b + 1 := by
  intro fuel
  induction fuel with
  | zero =>
    intro chain b errs dlv
    show dlv.length ≤ dlv.length + b + 1
    omega
  | succ n ih =>
    intro chain b errs dlv
    simp only [queryLoop]
    split
    · show dlv.length ≤ dlv.length + b + 1
      omega
    · split
      · split
        · show dlv.length ≤ dlv.length + b + 1
          omega
        · split
          · exact le_trans (ih _ _ _ _) (by omega)
          · show dlv.length ≤ dlv.length + b + 1
            omega
      · obtain ⟨ht, hf⟩ := deliverBatch_budget
          (chain.read specIterRead dest_size).2.1 b
        split
        · next hr =>
          have h1 := ht hr
          show (dlv ++ _).length ≤ dlv.length + b + 1
          simp only [List.length_append]
          omega
        · next hr =>
          obtain ⟨h1, h2⟩ := hf (by revert hr; cases (deliverBatch budgetPut b
              (chain.read specIterRead dest_size).2.1).2.2 <;> simp)
          split
          · refine le_trans (ih _ _ _ _) ?_
            rw [h2]
            simp only [List.length_append]
            omega
          · show (dlv ++ _).length ≤ dlv.length + b + 1
            simp only [List.length_append]
            omega

/-- Claim C8: with `group_by` enabled the driver only validates ids
against `transient_map` and never hands a sample to the consumer's
`put` — neither at loop level (first conjunct, any consumer, any chain)
nor across a whole `query` (second conjunct); and a batch whose first
offending sample's id is no key of the map makes the driver report
`AKU_EBAD_DATA` and return at once (third conjunct: id 1 selected,
empty map). -/
theorem claim_C8 :
    (∀ {κ : Type} (put : κ → aku_Sample → Bool × κ) (fuel : Nat)
       (chain : ChainIterator (List (aku_Timestamp × Value))) (k : κ)
       (req : ReshapeRequest) (errs : List aku_Status) (dlv : List aku_Sample),
       req.group_by.enabled = true →
       (queryLoop put req fuel chain k errs dlv).delivered = dlv) ∧
    (∀ {τ κ : Type} (T : TreeModel τ) (put : κ → aku_Sample → Bool × κ)
       (m : List (aku_ParamId × τ)) (req : ReshapeRequest) (k : κ),
       req.group_by.enabled = true →
       (ColumnStore.query T put m req k).delivered = []) ∧
    ColumnStore.query SpecTreeModel acceptAll [(1, [(10, 5)])]
        ⟨⟨[1], 0, 100⟩, OrderBy.SERIES, ⟨true, []⟩⟩ ()
      = ⟨[AKU_EBAD_DATA], [], QueryEnding.errored⟩ := by
  refine ⟨?_, ?_, by decide⟩
  · intro κ put fuel chain k req errs dlv hg
    exact queryLoop_groupBy_delivered put req hg fuel chain k errs dlv
  · intro τ κ T put m req k hg
    simp only [ColumnStore.query]
    split
    · exact queryLoop_groupBy_delivered put req hg _ _ _ _ _
    · rfl

theorem claim_C8_witness :
    ((⟨⟨[1], 0, 100⟩, OrderBy.SERIES, ⟨true, [(1, 0)]⟩⟩ : ReshapeRequest)).group_by.enabled
        = true ∧
    (ColumnStore.query SpecTreeModel acceptAll [(1, [(10, 5)])]
        ⟨⟨[1], 0, 100⟩, OrderBy.SERIES, ⟨true, [(1, 0)]⟩⟩ ()).delivered = [] :=
  ⟨by decide,
   claim_C8.2.1 SpecTreeModel acceptAll [(1, [(10, 5)])]
     ⟨⟨[1], 0, 100⟩, OrderBy.SERIES, ⟨true, [(1, 0)]⟩⟩ () (by decide)⟩

/-- Claim C9: with `group_by` disabled, a `false` from the consumer's
`put` makes the driver return at once without reporting any error (first
conjunct: a refusal-ended query carries exactly the lookup-phase errors)
and deliver nothing further (second conjunct: against a consumer
refusing the `b+1`-st sample, at most `b + 1` samples are ever handed to
`put`); the third conjunct runs the scenario: budget 1, three stored
samples, exactly two `put` calls, no error. -/
theorem claim_C9 :
    (∀ {τ κ : Type} (T : TreeModel τ) (put : κ → aku_Sample → Bool × κ)
       (m : List (aku_ParamId × τ)) (req : ReshapeRequest) (k : κ),
       (ColumnStore.query T put m req k).ending = QueryEnding.refused →
       (ColumnStore.query T put m req k).errors = (lookupPhase T m req).2) ∧
    (∀ {τ : Type} (T : TreeModel τ) (m : List (aku_ParamId × τ))
       (req : ReshapeRequest) (b : Nat),
       (ColumnStore.query T budgetPut m req b).delivered.length ≤ b + 1) ∧
    ColumnStore.query SpecTreeModel budgetPut [(1, [(10, 5), (20, 6), (30, 7)])]
        ⟨⟨[1], 0, 100⟩, OrderBy.SERIES, ⟨false, []⟩⟩ 1
      = ⟨[], [⟨1, 10, ⟨aku_PayloadType.FLOAT, 5⟩⟩, ⟨1, 20, ⟨aku_PayloadType.FLOAT, 6⟩⟩],
         QueryEnding.refused⟩ := by
  refine ⟨?_, ?_, by decide⟩
  · intro τ κ T put m req k
    simp only [ColumnStore.query]
    split
    · exact fun h => queryLoop_refused_errors put req _ _ _ _ _ h
    · intro h; simp at h
  · intro τ T m req b
    simp only [ColumnStore.query]
    split
    · exact le_trans (queryLoop_budget_len req _ _ _ _ _) (by simp)
    · simp

theorem claim_C9_witness :
    (ColumnStore.query SpecTreeModel budgetPut [(1, [(10, 5), (20, 6), (30, 7)])]
        ⟨⟨[1], 0, 100⟩, OrderBy.SERIES, ⟨false, []⟩⟩ 1).ending = QueryEnding.refused ∧
    (ColumnStore.query SpecTreeModel budgetPut [(1, [(10, 5), (20, 6), (30, 7)])]
        ⟨⟨[1], 0, 100⟩, OrderBy.SERIES, ⟨false, []⟩⟩ 1).errors
      = (lookupPhase SpecTreeModel [(1, [(10, 5), (20, 6), (30, 7)])]
          ⟨⟨[1], 0, 100⟩, OrderBy.SERIES, ⟨false, []⟩⟩).2 :=
  ⟨by decide,
   claim_C9.1 SpecTreeModel budgetPut [(1, [(10, 5), (20, 6), (30, 7)])]
     ⟨⟨[1], 0, 100⟩, OrderBy.SERIES, ⟨false, []⟩⟩ 1 (by decide)⟩

/-!
## Claims about `ChainIterator::read`
-/

/-- Claim C4, counterexample: `pos_++` is unconditional once residual
capacity remains, so the chain advances past an inner iterator that
returned `AKU_SUCCESS` with a partial batch — never `AKU_ENO_DATA` — and
consumes the next iterator in the same call: iterator 0 answers
`(AKU_SUCCESS, 1 sample)` to its only read, yet `read` returns samples
of both iterators and leaves `pos_ = 2`.  This refutes "advances from
iterator i to iterator i+1 only when iterator i has returned NO_DATA". -/
theorem claim_C4_counterexample :
    (scriptStep [(AKU_SUCCESS, [(5, 1)])] 10).1 = AKU_SUCCESS ∧
    ¬ (scriptStep [(AKU_SUCCESS, [(5, 1)])] 10).1 = AKU_ENO_DATA ∧
    ChainIterator.read scriptStep
        ⟨[1, 2], [[(AKU_SUCCESS, [(5, 1)])], [(AKU_ENO_DATA, [(9, 9)])]], 0⟩ 10
      = (AKU_ENO_DATA,
         [⟨1, 5, ⟨aku_PayloadType.FLOAT, 1⟩⟩, ⟨2, 9, ⟨aku_PayloadType.FLOAT, 9⟩⟩],
         ⟨[1, 2], [[], []], 2⟩) := by
  refine ⟨by decide, by decide, by decide⟩

/-- Claim C4, amended: for inner iterators whose `AKU_SUCCESS` reads
always fill the requested capacity (`SuccFills` — the situation of the
tree iterators this driver composes), the loop never advances past a
successful read (it breaks with the buffer full), it reaches a second
iterator only after the first returned `AKU_ENO_DATA`, and any other
status stops composition at once and is returned to the caller. -/
theorem claim_C4 {ι : Type} (step : IterStep ι) (H1 : SuccFills step)
    (ids : List aku_ParamId) (it : ι) (rest : List ι) (size : Nat) (st0 : aku_Status) :
    ((chainLoop step ids (it :: rest) size st0).2.2.1 ≥ 2 → (step it size).1 = AKU_ENO_DATA) ∧
    ((step it size).1 = AKU_SUCCESS → (chainLoop step ids (it :: rest) size st0).2.2.1 = 0) ∧
    (¬ (step it size).1 = AKU_SUCCESS → ¬ (step it size).1 = AKU_ENO_DATA →
      (chainLoop step ids (it :: rest) size st0).1 = (step it size).1 ∧
      (chainLoop step ids (it :: rest) size st0).2.2.1 ≤ 1) := by
  simp only [chainLoop]
  split
  · refine ⟨?_, ?_, ?_⟩
    · intro h
      simp at h
    · intro _
      rfl
    · intro _ _
      exact ⟨rfl, by simp⟩
  · next hz =>
    split
    · next hd =>
      refine ⟨?_, ?_, ?_⟩
      · intro _
        rcases hd with hd | hd
        · exact hd
        · exact absurd (H1 it size hd) (by omega)
      · intro hS
        exact absurd (H1 it size hS) (by omega)
      · intro h1 h2
        rcases hd with hd | hd
        · exact absurd hd h2
        · exact absurd hd h1
    · next hd =>
      refine ⟨?_, ?_, ?_⟩
      · intro h
        simp at h
      · intro hS
        exact absurd (Or.inr hS) hd
      · intro _ _
        exact ⟨rfl, by simp⟩

theorem claim_C4_witness :
    (specIterRead [(1, 1), (2, 2), (3, 3), (4, 4)] 4).1 = AKU_SUCCESS ∧
    (chainLoop specIterRead [1, 2] [[(1, 1), (2, 2), (3, 3), (4, 4)], [(9, 9)]] 4
        AKU_ENO_DATA).2.2.1 = 0 :=
  ⟨by decide,
   (claim_C4 specIterRead specIterRead_succFills [1, 2]
      [(1, 1), (2, 2), (3, 3), (4, 4)] [[(9, 9)]] 4 AKU_ENO_DATA).2.1 (by decide)⟩

/-- Claim C5, counterexample: an inner iterator returning `AKU_ENO_DATA`
with a batch that exactly fills the remaining capacity makes the loop
break on `size == 0` with `status = AKU_ENO_DATA`, so `read` returns
`NO_DATA` although the second inner iterator is not drained (its next
read still answers `AKU_SUCCESS` with a sample).  This refutes "returns
NO_DATA exactly when all inner iterators have been drained". -/
theorem claim_C5_counterexample :
    ChainIterator.read scriptStep
        ⟨[1, 2],
         [[(AKU_ENO_DATA, [(1, 1), (2, 2), (3, 3), (4, 4)])], [(AKU_SUCCESS, [(9, 9)])]],
         0⟩ 4
      = (AKU_ENO_DATA,
         [⟨1, 1, ⟨aku_PayloadType.FLOAT, 1⟩⟩, ⟨1, 2, ⟨aku_PayloadType.FLOAT, 2⟩⟩,
          ⟨1, 3, ⟨aku_PayloadType.FLOAT, 3⟩⟩, ⟨1, 4, ⟨aku_PayloadType.FLOAT, 4⟩⟩],
         ⟨[1, 2], [[], [(AKU_SUCCESS, [(9, 9)])]], 0⟩) ∧
    (scriptStep [(AKU_SUCCESS, [(9, 9)])] 4).1 = AKU_SUCCESS := by
  refine ⟨by decide, by decide⟩

/-- Claim C5, amended: for inner iterators that return strictly partial
batches on `AKU_ENO_DATA` (`NoDataPartial` — ruling out the
counterexample's exact-fill drain), a loop run returning `AKU_ENO_DATA`
has consumed every inner iterator (first conjunct); draining `k`
exhausted range iterators yields `(AKU_ENO_DATA, 0 samples)` — `n` may
be zero (second conjunct); and a read whose status is neither
`AKU_SUCCESS` nor `AKU_ENO_DATA` makes the loop return exactly that
error together with the samples that read produced (third conjunct; the
samples accumulated from earlier iterators are prepended by the
recursion, so nothing already produced is lost). -/
theorem claim_C5 {ι : Type} (step : IterStep ι) (H0 : StepWF step)
    (H2 : NoDataPartial step) :
    (∀ (ids : List aku_ParamId) (iters : List ι) (size : Nat) (st0 : aku_Status),
      0 < size → (chainLoop step ids iters size st0).1 = AKU_ENO_DATA →
      (chainLoop step ids iters size st0).2.2.1 = iters.length) ∧
    (∀ (ids : List aku_ParamId) (k size : Nat), 0 < size →
      chainLoop specIterRead ids (List.replicate k []) size AKU_ENO_DATA
        = (AKU_ENO_DATA, [], k, List.replicate k [])) ∧
    (∀ (ids : List aku_ParamId) (it : ι) (rest : List ι) (size : Nat) (st0 : aku_Status),
      ¬ (step it size).1 = AKU_SUCCESS → ¬ (step it size).1 = AKU_ENO_DATA →
      (chainLoop step ids (it :: rest) size st0).1 = (step it size).1 ∧
      (chainLoop step ids (it :: rest) size st0).2.1
        = (step it size).2.1.map
            (fun p => aku_Sample.mk (ids.headD 0) p.1 ⟨aku_PayloadType.FLOAT, p.2⟩)) := by
  refine ⟨?_, ?_, ?_⟩
  · intro ids iters
    induction iters generalizing ids with
    | nil =>
      intro size st0 _ _
      rfl
    | cons it rest ih =>
      intro size st0 hs
      simp only [chainLoop]
      split
      · next hz =>
        intro h
        exfalso
        have hle := H0 it size
        have hlt := H2 it size h
        omega
      · next hz =>
        split
        · next hd =>
          intro h
          have hs' : 0 < size - (step it size).2.1.length := Nat.pos_of_ne_zero hz
          have hr := ih ids.tail (size - (step it size).2.1.length) (step it size).1 hs' h
          simp only [List.length_cons]
          show (chainLoop step ids.tail rest (size - (step it size).2.1.length)
            (step it size).1).2.2.1 + 1 = rest.length + 1
          omega
        · next hd =>
          intro h
          exact absurd (Or.inl h) hd
  · intro ids k
    induction k generalizing ids with
    | zero =>
      intro size hs
      rfl
    | succ n ih =>
      intro size hs
      have h1 : specIterRead ([] : List (aku_Timestamp × Value)) size
          = (AKU_ENO_DATA, [], []) := by
        simp only [specIterRead, List.take_nil, List.drop_nil, List.length_nil]
        rw [if_pos hs]
      rw [List.replicate_succ]
      simp only [chainLoop, h1]
      rw [if_pos (Or.inl trivial)]
      have hz2 : size - ([] : List (aku_Timestamp × Value)).length = size := by simp
      rw [hz2, ih ids.tail size hs]
      simp
      omega
  · intro ids it rest size st0 h1 h2
    simp only [chainLoop]
    split
    · exact ⟨rfl, rfl⟩
    · split
      · next hd =>
        rcases hd with hd | hd
        · exact absurd hd h2
        · exact absurd hd h1
      · exact ⟨rfl, rfl⟩

theorem claim_C5_witness :
    0 < 4 ∧
    (chainLoop specIterRead [1] [[(1, 1)]] 4 AKU_ENO_DATA).1 = AKU_ENO_DATA ∧
    (chainLoop specIterRead [1] [[(1, 1)]] 4 AKU_ENO_DATA).2.2.1 = 1 :=
  ⟨by decide, by decide,
   (claim_C5 specIterRead specIterRead_wf
      specIterRead_noDataPartial).1 [1] [[(1, 1)]] 4 AKU_ENO_DATA (by decide) (by decide)⟩

end Akumuli
